import Mathlib

/-!
Verification of the task-tracking core of `src/app.py` (a Flask + yt-dlp
download service).  The Python code is shallowly embedded: dictionaries
become structures, byte counts become `Nat`, Python's truthiness tests and
`or` on optional numbers are modelled explicitly, and the background
worker's execution is modelled as the sequence of task-record states it
produces (the progress-hook invocations fired during the extraction call,
followed by the worker's final update — the order the code guarantees,
since the hooks run inside `ydl_extract_info` and the final update runs
after it returns, on the same thread).
-/

/-- One entry of a task record's `messages` list (`add_task_message`,
`src/app.py` lines 26-31 appends a dict with keys `ts` and `text`). -/
structure Message where
  ts : Nat
  text : String
deriving DecidableEq

/-- A task record, the value stored in the `TASKS` dict (`src/app.py`
lines 270-274).  `filename` and `error` model the optional keys of the
Python dict: `none` means the key is absent (or `None`). -/
structure TaskRec where
  status : String
  progress : String
  messages : List Message
  created : Nat
  filename : Option String := none
  error : Option String := none
deriving DecidableEq

/-- The record inserted by `download_route` (`src/app.py` lines 270-275):
`status="running"`, `progress="0%"`, empty messages, then
`add_task_message(task_id, "Task started")` appends the first message. -/
def createdTask (now : Nat) : TaskRec :=
  { status := "running", progress := "0%",
    messages := [⟨now, "Task started"⟩], created := now }

/-- Appends a timestamped message to a record, as `add_task_message`
does for a record that exists in the store (`src/app.py` lines 26-31). -/
def addMessage (r : TaskRec) (now : Nat) (text : String) : TaskRec :=
  { r with messages := r.messages ++ [⟨now, text⟩] }

/-- A progress event dict passed by yt-dlp to the hook.  Only the keys the
hook reads are modelled; `none` models an absent key (`d.get` returns
`None`). -/
structure HookEvent where
  status : Option String := none
  total_bytes : Option Nat := none
  total_bytes_estimate : Option Nat := none
  downloaded_bytes : Option Nat := none
deriving DecidableEq

/-- Python's `a or b` on two optional numbers: `a` wins unless it is
falsy (`None` or `0`).  Models `d.get("total_bytes") or
d.get("total_bytes_estimate")` (`src/app.py` line 280). -/
def pyOrNat (a b : Option Nat) : Option Nat :=
  match a with
  | some n => if n = 0 then b else some n
  | none => b

/-- Renders a percentage the way the f-string at `src/app.py` line 283
does. -/
def renderPct (n : Nat) : String :=
  toString n ++ "%"

/-- The percentage computed by the hook's "downloading" branch
(`src/app.py` lines 280-282): `pct = int(done * 100 / total) if total
else 0` with `done = d.get("downloaded_bytes", 0)`.  `int` of the
nonnegative float quotient is floor, i.e. `Nat` division. -/
def downloadingPct (d : HookEvent) : Nat :=
  match pyOrNat d.total_bytes d.total_bytes_estimate with
  | some total => if total = 0 then 0 else d.downloaded_bytes.getD 0 * 100 / total
  | none => 0

/-- The progress hook (`src/app.py` lines 277-288) acting on the task's
record.  On "downloading" it overwrites `progress`; on "finished" it sets
`progress` to `"100%"` and `status` to `"processing"`; any other event
leaves the record unchanged.  The `try/except: pass` around the body only
swallows exceptions (none arise in this model). -/
def progress_hook (r : TaskRec) (d : HookEvent) : TaskRec :=
  if d.status = some "downloading" then
    { r with progress := renderPct (downloadingPct d) }
  else if d.status = some "finished" then
    { r with progress := "100%", status := "processing" }
  else r

/-- Classifies a "downloading" event (`d.get("status") == "downloading"`). -/
def isDownloadingEvent (d : HookEvent) : Bool :=
  d.status = some "downloading"

/-- Classifies a "finished" event (`d.get("status") == "finished"`). -/
def isFinishedEvent (d : HookEvent) : Bool :=
  d.status = some "finished"

/-- Splits a character list on `/` the way POSIX path parsing does,
keeping empty groups (they are filtered afterwards, as `pathlib` drops
empty and `.` components). -/
def splitSlash : List Char → List (List Char)
  | [] => [[]]
  | c :: cs =>
    if c = '/' then [] :: splitSlash cs
    else
      match splitSlash cs with
      | [] => [[c]]
      | g :: gs => (c :: g) :: gs

/-- The parsed components of a POSIX path string as `pathlib` keeps them:
empty and `.` components are dropped, `..` is kept. -/
def pathComponents (s : String) : List (List Char) :=
  (splitSlash s.data).filter (fun g => g ≠ [] ∧ g ≠ ['.'])

/-- Python's `pathlib.Path(s).name`: the final kept component, or the
empty string if there is none.  Note `Path("..").name == ".."` and
`Path(".").name == ""`. -/
def pyName (s : String) : String :=
  ⟨(pathComponents s).getLastD []⟩

/-- The outcome of `ydl_extract_info(url, opts, download=True)`
(`src/app.py` lines 169-175) as observed by `worker`, together with the
possibility that some other statement of the worker's `try` block raises:
`ok filename` is the dict with `ok=True` and the collaborator's
`prepare_filename` string; `fail error` is the dict with `ok=False` and
`str(e)`; `raised msg` models an exception raised inside the `try` block
itself (caught by the worker's `except`). -/
inductive YdlOutcome where
  | ok (filename : String)
  | fail (error : String)
  | raised (msg : String)
deriving DecidableEq

/-- Python's `a or b` for an optional string `a`: `b` wins when `a` is
`None` or empty (both falsy). -/
def pyOrStr (a : Option String) (b : String) : String :=
  match a with
  | some s => if s = "" then b else s
  | none => b

/-- The worker's final update of the task's record (`src/app.py` lines
304-313).  On success the basename of the produced file is recorded
(`Path(res["filename"]).name if res.get("filename") else None`), the
status becomes `done` and a message is appended; on failure the status
becomes `error` with the error string and a message; an exception from
the `try` block is handled by the `except` clause, which records `error`
without appending a message. -/
def workerFinal (r : TaskRec) (outcome : YdlOutcome) (now : Nat) : TaskRec :=
  match outcome with
  | .ok filename =>
    let fn : Option String := if filename = "" then none else some (pyName filename)
    addMessage { r with status := "done", filename := fn } now
      ("Done: " ++ pyOrStr fn "(unknown)")
  | .fail err =>
    addMessage { r with status := "error", error := some err } now
      ("Error: " ++ err)
  | .raised msg =>
    { r with status := "error", error := some msg }

/-- The record after the hook has processed a list of events in order. -/
def runHooks (r : TaskRec) (events : List HookEvent) : TaskRec :=
  events.foldl progress_hook r

/-- The sequence of states a task's record passes through during one
worker run: the initial record, the state after each progress-hook
invocation (the hooks fire inside the extraction call), and the state
after the worker's final update. -/
def workerStates (r : TaskRec) : List HookEvent → YdlOutcome → Nat → List TaskRec
  | [], outcome, now => [r, workerFinal r outcome now]
  | e :: es, outcome, now => r :: workerStates (progress_hook r e) es outcome now

/-- The full state trace of one download task, starting from the record
`download_route` creates. -/
def workerTrace (now : Nat) (events : List HookEvent) (outcome : YdlOutcome) :
    List TaskRec :=
  workerStates (createdTask now) events outcome now

/-- The observable result of one execution of `worker` (`src/app.py`
lines 290-319): the record's final state, the path the `finally` block
attempted to `os.unlink` (if any), and the exception (if any) that
escaped the thread function — the bare `except Exception` clause means
none ever does. -/
structure WorkerResult where
  record : TaskRec
  unlinkAttempted : Option String
  escaped : Option String
deriving DecidableEq

/-- One execution of `worker`: the `try` block applies the hook events and
the extraction outcome (an exception raised in the block is caught by
`except Exception` and turned into an `error` update on the record), and
the `finally` block attempts to delete the temporary cookie file exactly
when one was supplied (`src/app.py` lines 314-319). -/
def workerRun (cookiefile : Option String) (now : Nat)
    (events : List HookEvent) (outcome : YdlOutcome) : WorkerResult :=
  { record := workerFinal (runHooks (createdTask now) events) outcome now,
    unlinkAttempted := cookiefile,
    escaped := none }

/-- Python's `s.startswith(p)`. -/
def pyStartswith (s p : String) : Bool :=
  p.data.isPrefixOf s.data

/-- Everything after the first occurrence of `sep`, if any: the tail part
of Python's `s.split(sep, 1)`. -/
def afterChar (sep : Char) : List Char → Option (List Char)
  | [] => none
  | c :: cs => if c = sep then some cs else afterChar sep cs

/-- Python's `s.split(":", 1)[1]` as used at `src/app.py` line 296 (the
worker only evaluates it when the string starts with `"audio:"`, so the
colon is present and the fallback is never taken). -/
def pyAfterColon (s : String) : String :=
  ⟨(afterChar ':' s.data).getD []⟩

/-- The `audio_convert` dict built by the worker (`src/app.py` line 296):
both keys are always present. -/
structure AudioConvert where
  codec : String
  quality : Nat
deriving DecidableEq

/-- One entry of the `postprocessors` list built by
`prepare_yt_dlp_opts` (`src/app.py` lines 157-162). -/
structure PostProcessorSpec where
  key : String
  preferredcodec : String
  preferredquality : String
deriving DecidableEq

/-- The yt-dlp options dict assembled by `prepare_yt_dlp_opts`
(`src/app.py` lines 122-167), restricted to the keys the claims are
about plus the fixed scalar knobs.  The constant `http_headers` dict is
not modelled field by field. -/
structure YdlOpts where
  format : String
  quiet : Bool
  no_warnings : Bool
  outtmpl : String
  retries : Nat
  socket_timeout : Nat
  nocheckcertificate : Bool
  geo_bypass : Bool
  proxy : Option String
  cookiefile : Option String
  postprocessors : List PostProcessorSpec
  has_progress_hook : Bool
deriving DecidableEq

/-- The default output template `str(DOWNLOAD_DIR / "%(title)s -
%(id)s.%(ext)s")`, with `DOWNLOAD_DIR` rendered relative to the app
directory. -/
def defaultOuttmpl : String :=
  "downloads/%(title)s - %(id)s.%(ext)s"

/-- Shallow embedding of `prepare_yt_dlp_opts` (`src/app.py` lines
122-167).  `format_override or "bestvideo+bestaudio/best"` is Python
`or`, so an empty override also falls back to the default.  The
environment-derived proxy (already reduced to a truthy value or absence)
and the existence of the server-side `cookies.txt` are parameters. -/
def prepare_yt_dlp_opts (cookiefile : Option String)
    (output_template : Option String) (hasHook : Bool)
    (format_override : Option String) (audio_convert : Option AudioConvert)
    (serverCookieExists : Bool) (proxy : Option String) : YdlOpts :=
  { format := pyOrStr format_override "bestvideo+bestaudio/best",
    quiet := true,
    no_warnings := true,
    outtmpl := pyOrStr output_template defaultOuttmpl,
    retries := 5,
    socket_timeout := 30,
    nocheckcertificate := true,
    geo_bypass := true,
    proxy := proxy,
    cookiefile :=
      match cookiefile with
      | some c => some c
      | none => if serverCookieExists then some "cookies.txt" else none,
    postprocessors :=
      match audio_convert with
      | some ac => [⟨"FFmpegExtractAudio", ac.codec, toString ac.quality⟩]
      | none => [],
    has_progress_hook := hasHook }

/-- The worker's parsing of the `requested` form field (`src/app.py`
lines 292-299): `fmt` and `audio_convert` start as `None`; a non-empty
selector starting with `"audio:"` selects best audio plus a transcode to
the codec named after the colon at quality 192; any other non-empty
selector is passed through as `fmt`. -/
def parseRequested (requested : String) :
    Option String × Option AudioConvert :=
  if requested = "" then (none, none)
  else if pyStartswith requested "audio:" then
    (some "bestaudio/best", some ⟨pyAfterColon requested, 192⟩)
  else (some requested, none)

/-- The options the worker passes to the extraction call (`src/app.py`
lines 301-302): the parsed format override and audio conversion, the
task's progress hook, and the request's cookie file. -/
def workerOpts (requested : String) (cookiefile : Option String)
    (serverCookieExists : Bool) (proxy : Option String) : YdlOpts :=
  prepare_yt_dlp_opts cookiefile none true (parseRequested requested).1
    (parseRequested requested).2 serverCookieExists proxy

/-- An HTTP response of the JSON routes, reduced to the parts the claims
are about: the HTTP status code and the `ok`/`error`/`task` members of
the JSON body (`none` models an absent member). -/
structure JsonResponse where
  httpStatus : Nat
  ok : Bool
  error : Option String := none
  task : Option TaskRec := none
deriving DecidableEq

/-- The `GET /task/<tid>` handler (`src/app.py` lines 324-329).  The
store lookup is `TASKS.get(tid)`; `if not t` is dict truthiness, and a
present record always carries at least its four creation keys and is
therefore truthy, so only a missing id takes the 404 branch.  The
handler is a total function: it never raises. -/
def task_status (store : String → Option TaskRec) (tid : String) :
    JsonResponse :=
  match store tid with
  | none => { httpStatus := 404, ok := false, error := some "no such task" }
  | some t => { httpStatus := 200, ok := true, task := some t }

/-- What a filesystem path names: a regular file, a directory, or
nothing. -/
inductive PathKind where
  | file
  | dir
  | missing
deriving DecidableEq

/-- A filesystem snapshot, as a map from component lists (relative to the
filesystem root in which the app runs) to what they name. -/
def FileSystem : Type := List String → PathKind

/-- The components of `DOWNLOAD_DIR = BASE_DIR / "downloads"`
(`src/app.py` lines 18-19), given the components of `BASE_DIR`. -/
def downloadDir (base : List String) : List String :=
  base ++ ["downloads"]

/-- Python's `DOWNLOAD_DIR / safe` on components: `pathlib` drops an
empty segment, keeps any other (including `".."`). -/
def pyJoin (dir : List String) (seg : String) : List String :=
  if seg = "" then dir else dir ++ [seg]

/-- A response of `serve_file`: either the file at the given path is
streamed, or a JSON body is returned.  `send_file` on a path that is not
a regular file raises, which Flask's 500 handler turns into the
`internal_server_error` JSON body (`src/app.py` lines 344-348). -/
inductive FileResponse where
  | fileAt (path : List String)
  | json (httpStatus : Nat) (ok : Bool) (error : String)
deriving DecidableEq

/-- The `GET /download_file/<filename>` handler (`src/app.py` lines
331-337): `safe = Path(filename).name`, `p = DOWNLOAD_DIR / safe`; if
`p.exists()` the file is sent as an attachment, else the 404 JSON shape
is returned. -/
def serve_file (base : List String) (fs : FileSystem) (filename : String) :
    FileResponse :=
  let safe := pyName filename
  let p := pyJoin (downloadDir base) safe
  if fs p ≠ PathKind.missing then
    if fs p = PathKind.file then FileResponse.fileAt p
    else FileResponse.json 500 false "internal_server_error"
  else FileResponse.json 404 false "file not found"

/-- The kind of a source-level access to the shared `TASKS` map. -/
inductive AccessKind where
  | read
  | insert
  | update
deriving DecidableEq

/-- One source-level access site of the `TASKS` map: the enclosing
function, the kind of access, and whether the access happens inside a
`with TASK_LOCK` block. -/
structure AccessSite where
  fn : String
  kind : AccessKind
  underLock : Bool
deriving DecidableEq

/-- Every access to `TASKS` in `src/app.py`, with its lock scope.  The
only `with TASK_LOCK:` block in the file is the insert at lines 270-274;
the reads at lines 27 and 326 and the updates at lines 283, 285-286,
307, 310 and 313 are bare dict operations. -/
def taskMapAccessSites : List AccessSite :=
  [⟨"add_task_message", AccessKind.read, false⟩,
   ⟨"download_route", AccessKind.insert, true⟩,
   ⟨"progress_hook_downloading", AccessKind.update, false⟩,
   ⟨"progress_hook_finished", AccessKind.update, false⟩,
   ⟨"worker_done", AccessKind.update, false⟩,
   ⟨"worker_error", AccessKind.update, false⟩,
   ⟨"worker_except", AccessKind.update, false⟩,
   ⟨"task_status", AccessKind.read, false⟩]

/-- The transitions the spec's state machine allows: forward moves along
running to processing to done or error, with the terminal states only
mapping to themselves. -/
def statusStepOK (s t : String) : Prop :=
  (s = "running" ∧
    (t = "running" ∨ t = "processing" ∨ t = "done" ∨ t = "error")) ∨
  (s = "processing" ∧ (t = "processing" ∨ t = "done" ∨ t = "error")) ∨
  (s = "done" ∧ t = "done") ∨
  (s = "error" ∧ t = "error")

/-- The percentage a "downloading" event makes the hook record, if the
event is one. -/
def eventPct (d : HookEvent) : Option Nat :=
  if isDownloadingEvent d then some (downloadingPct d) else none

/-- Holds when no "downloading" event occurs after a "finished" event in
the list. -/
def noDownloadingAfterFinished : List HookEvent → Bool
  | [] => true
  | e :: es =>
    if isFinishedEvent e then es.all (fun x => !isDownloadingEvent x)
    else noDownloadingAfterFinished es

/-- Numeric value of the digit run that starts a string; gives back the
percentage of a rendered progress string. -/
def digitsVal : List Char → Nat → Nat
  | [], acc => acc
  | c :: cs, acc => if c.isDigit then digitsVal cs (10 * acc + (c.toNat - 48)) else acc

/-- The percentage named by a progress string such as `"37%"`. -/
def pctOf (s : String) : Nat := digitsVal s.data 0

/-- The event list used to witness C3 (amended): downloading at 25 of
100 bytes, downloading at 50 of 100 bytes, then finished. -/
def c3WitnessEvents : List HookEvent :=
  [⟨some "downloading", some 100, none, some 25⟩,
   ⟨some "downloading", some 100, none, some 50⟩,
   ⟨some "finished", none, none, none⟩]

/-- The strings the collaborator hands the worker, when they are usable:
a successful extraction names a file with a non-empty basename
(`prepare_filename` output), and a failure or exception carries a
non-empty description (`str(e)`). -/
def outcomeStringsOK : YdlOutcome → Bool
  | .ok f => !(pyName f == "")
  | .fail e => !(e == "")
  | .raised m => !(m == "")

/-- A concrete filesystem for the C10 witness: the download directory
holds one file. -/
def c10Fs : FileSystem := fun p =>
  if p = ["app", "downloads", "vid.mp4"] then PathKind.file
  else if p = ["app", "downloads"] then PathKind.dir
  else if p = ["app", "downloads", ".."] then PathKind.dir
  else PathKind.missing

/-- C1: the progress hook translates extraction events exactly as the
spec says: a "downloading" event with a truthy total and a
`downloaded_bytes` value sets `progress` to
`floor(downloaded * 100 / total)` rendered with a `%` suffix; a
"downloading" event without a truthy total records `"0%"`; a "finished"
event forces `progress = "100%"` and `status = "processing"`; any other
event leaves the record unchanged. -/
theorem claim_C1_progress_hook (r : TaskRec) (d : HookEvent) :
    (∀ total db, d.status = some "downloading" →
      pyOrNat d.total_bytes d.total_bytes_estimate = some total → total ≠ 0 →
      d.downloaded_bytes = some db →
      progress_hook r d = { r with progress := renderPct (db * 100 / total) }) ∧
    (d.status = some "downloading" →
      (pyOrNat d.total_bytes d.total_bytes_estimate = none ∨
        pyOrNat d.total_bytes d.total_bytes_estimate = some 0) →
      progress_hook r d = { r with progress := "0%" }) ∧
    (d.status = some "finished" →
      progress_hook r d = { r with progress := "100%", status := "processing" }) ∧
    (d.status ≠ some "downloading" → d.status ≠ some "finished" →
      progress_hook r d = r) := by
  refine ⟨?_, ?_, ?_, ?_⟩
  · intro total db hs ht htz hdb
    simp [progress_hook, downloadingPct, hs, ht, htz, hdb]
  · intro hs hcase
    have h0 : downloadingPct d = 0 := by
      rcases hcase with hc | hc <;> simp [downloadingPct, hc]
    have hr : renderPct 0 = "0%" := by decide
    simp [progress_hook, hs, h0, hr]
  · intro hs
    simp [progress_hook, hs]
  · intro h1 h2
    simp [progress_hook, h1, h2]

/-- Witness for C1 at concrete events: a downloading event at 50 of 200
bytes, a downloading event with no total, a finished event, and a
post-processing event. -/
theorem claim_C1_progress_hook_witness :
    progress_hook (createdTask 0) ⟨some "downloading", some 200, none, some 50⟩
      = { createdTask 0 with progress := renderPct (50 * 100 / 200) } ∧
    progress_hook (createdTask 0) ⟨some "downloading", none, none, some 50⟩
      = { createdTask 0 with progress := "0%" } ∧
    progress_hook (createdTask 0) ⟨some "finished", none, none, none⟩
      = { createdTask 0 with progress := "100%", status := "processing" } ∧
    progress_hook (createdTask 0) ⟨some "postprocessing", none, none, none⟩
      = createdTask 0 :=
  ⟨(claim_C1_progress_hook (createdTask 0) _).1 200 50 rfl rfl (by decide) rfl,
   (claim_C1_progress_hook (createdTask 0) _).2.1 rfl (Or.inl rfl),
   (claim_C1_progress_hook (createdTask 0) _).2.2.1 rfl,
   (claim_C1_progress_hook (createdTask 0) _).2.2.2 (by decide) (by decide)⟩

/-- The worker's final update always ends in one of the two terminal
statuses. -/
theorem workerFinal_status (r : TaskRec) (o : YdlOutcome) (n : Nat) :
    (workerFinal r o n).status = "done" ∨ (workerFinal r o n).status = "error" := by
  cases o <;> simp [workerFinal, addMessage]

/-- The hook either keeps the status or sets it to `"processing"`. -/
theorem progress_hook_status (r : TaskRec) (d : HookEvent) :
    (progress_hook r d).status = r.status ∨
    (progress_hook r d).status = "processing" := by
  unfold progress_hook
  split
  · exact Or.inl rfl
  split
  · exact Or.inr rfl
  · exact Or.inl rfl

/-- The state sequence of a worker run starts at the initial record. -/
theorem workerStates_head (r : TaskRec) (es : List HookEvent)
    (o : YdlOutcome) (n : Nat) : (workerStates r es o n).head? = some r := by
  cases es <;> rfl

/-- Every adjacent pair of states in a worker run is an allowed forward
transition, provided the run starts in a pre-terminal status. -/
theorem workerStates_chain (es : List HookEvent) (r : TaskRec)
    (o : YdlOutcome) (n : Nat)
    (h : r.status = "running" ∨ r.status = "processing") :
    List.Chain' (fun a b => statusStepOK a.status b.status)
      (workerStates r es o n) := by
  induction es generalizing r with
  | nil =>
    have hf := workerFinal_status r o n
    refine List.chain'_cons.mpr ⟨?_, List.chain'_singleton _⟩
    rcases h with h | h <;> rcases hf with hf | hf <;> simp [statusStepOK, h, hf]
  | cons e es ih =>
    have hstep := progress_hook_status r e
    have h' : (progress_hook r e).status = "running" ∨
        (progress_hook r e).status = "processing" := by
      rcases hstep with hs | hs
      · rw [hs]; exact h
      · exact Or.inr hs
    rw [workerStates]
    refine List.chain'_cons'.mpr ⟨?_, ih (progress_hook r e) h'⟩
    intro y hy
    rw [workerStates_head] at hy
    have hyy : y = progress_hook r e := by
      cases hy
      rfl
    rw [hyy]
    rcases h with h | h <;> rcases hstep with hs | hs <;>
      simp [statusStepOK, h, hs]

/-- A worker run's state sequence always starts with its initial record. -/
theorem workerStates_cons_shape (es : List HookEvent) (r : TaskRec)
    (o : YdlOutcome) (n : Nat) :
    ∃ tail, workerStates r es o n = r :: tail := by
  cases es <;> exact ⟨_, rfl⟩

/-- Every state of a worker run except the last one is pre-terminal. -/
theorem workerStates_dropLast_status (es : List HookEvent) (r : TaskRec)
    (o : YdlOutcome) (n : Nat)
    (h : r.status = "running" ∨ r.status = "processing") :
    ∀ t ∈ (workerStates r es o n).dropLast,
      t.status = "running" ∨ t.status = "processing" := by
  induction es generalizing r with
  | nil =>
    intro t ht
    simp [workerStates] at ht
    rw [ht]
    exact h
  | cons e es ih =>
    intro t ht
    obtain ⟨tail, htail⟩ := workerStates_cons_shape es (progress_hook r e) o n
    rw [workerStates, htail, List.dropLast_cons₂] at ht
    have h' : (progress_hook r e).status = "running" ∨
        (progress_hook r e).status = "processing" := by
      rcases progress_hook_status r e with hs | hs
      · rw [hs]; exact h
      · exact Or.inr hs
    rcases List.mem_cons.mp ht with h1 | h2
    · rw [h1]; exact h
    · rw [← htail] at h2
      exact ih (progress_hook r e) h' t h2

/-- The last state of a worker run is the worker's final update of the
record the hooks produced. -/
theorem workerStates_getLast (es : List HookEvent) (r d : TaskRec)
    (o : YdlOutcome) (n : Nat) :
    (workerStates r es o n).getLastD d = workerFinal (runHooks r es) o n := by
  induction es generalizing r d with
  | nil => rfl
  | cons e es ih =>
    rw [workerStates, List.getLastD_cons]
    exact ih (progress_hook r e) r

/-- C2: along the states a task's record passes through — creation in
`running`, the progress-hook invocations fired during the extraction
call, and the worker's final update — the status only moves forward along
the machine running to processing to done or error: every adjacent pair
of states is an allowed forward transition, every state before the last
is pre-terminal (so no transition ever leaves a terminal state), and the
final state is terminal. -/
theorem claim_C2_status_forward (now : Nat) (events : List HookEvent)
    (outcome : YdlOutcome) :
    List.Chain' (fun a b => statusStepOK a.status b.status)
      (workerTrace now events outcome) ∧
    (∀ t ∈ (workerTrace now events outcome).dropLast,
      t.status = "running" ∨ t.status = "processing") ∧
    (((workerTrace now events outcome).getLastD (createdTask now)).status = "done" ∨
      ((workerTrace now events outcome).getLastD (createdTask now)).status = "error") := by
  refine ⟨workerStates_chain events (createdTask now) outcome now (Or.inl rfl),
    workerStates_dropLast_status events (createdTask now) outcome now (Or.inl rfl),
    ?_⟩
  rw [workerTrace, workerStates_getLast]
  exact workerFinal_status (runHooks (createdTask now) events) outcome now

/-- Witness for C2 at a concrete run: one downloading event, one finished
event, then a successful extraction. -/
theorem claim_C2_status_forward_witness :
    (createdTask 0) ∈
      (workerTrace 0 [⟨some "downloading", some 200, none, some 50⟩,
        ⟨some "finished", none, none, none⟩] (YdlOutcome.ok "downloads/a.mp4")).dropLast ∧
    ((createdTask 0).status = "running" ∨ (createdTask 0).status = "processing") :=
  ⟨by decide,
   (claim_C2_status_forward 0 [⟨some "downloading", some 200, none, some 50⟩,
      ⟨some "finished", none, none, none⟩] (YdlOutcome.ok "downloads/a.mp4")).2.1
     (createdTask 0) (by decide)⟩

/-- The hook on a "downloading" event only rewrites `progress`. -/
theorem progress_hook_downloading (r : TaskRec) (d : HookEvent)
    (h : isDownloadingEvent d = true) :
    progress_hook r d = { r with progress := renderPct (downloadingPct d) } := by
  have hs : d.status = some "downloading" := by
    simpa [isDownloadingEvent] using h
  simp [progress_hook, hs]

/-- The hook on a "finished" event sets `progress` and `status`. -/
theorem progress_hook_finished (r : TaskRec) (d : HookEvent)
    (h : isFinishedEvent d = true) :
    progress_hook r d = { r with progress := "100%", status := "processing" } := by
  have hs : d.status = some "finished" := by
    simpa [isFinishedEvent] using h
  simp [progress_hook, hs]

/-- The hook ignores an event that is neither "downloading" nor
"finished". -/
theorem progress_hook_other (r : TaskRec) (d : HookEvent)
    (h1 : isDownloadingEvent d = false) (h2 : isFinishedEvent d = false) :
    progress_hook r d = r := by
  have hs1 : d.status ≠ some "downloading" := by
    simpa [isDownloadingEvent] using h1
  have hs2 : d.status ≠ some "finished" := by
    simpa [isFinishedEvent] using h2
  simp [progress_hook, hs1, hs2]

/-- The worker's final update never changes `progress`. -/
theorem workerFinal_progress (r : TaskRec) (o : YdlOutcome) (n : Nat) :
    (workerFinal r o n).progress = r.progress := by
  cases o <;> simp [workerFinal, addMessage]

/-- While the status is still `"running"`, the progress column of a
worker run's states renders a sequence of percentages that is
non-decreasing whenever the percentages reported by the downloading
events are non-decreasing (from the starting percentage on). -/
theorem workerStates_runningPart (es : List HookEvent) (r : TaskRec)
    (o : YdlOutcome) (no : Nat) (m : Nat)
    (hst : r.status = "running") (hpr : r.progress = renderPct m)
    (hchain : List.Chain' (· ≤ ·) (m :: es.filterMap eventPct)) :
    ∃ ns, List.Chain' (· ≤ ·) (m :: ns) ∧
      ((workerStates r es o no).takeWhile
        (fun t => t.status == "running")).map TaskRec.progress
        = (m :: ns).map renderPct := by
  induction es generalizing r m with
  | nil =>
    refine ⟨[], List.chain'_singleton m, ?_⟩
    have hp : (r.status == "running") = true := by simp [hst]
    have hq : ((workerFinal r o no).status == "running") = false := by
      rcases workerFinal_status r o no with hf | hf <;> simp [hf]
    simp [workerStates, List.takeWhile_cons, hp, hq, hpr]
  | cons e es ih =>
    cases hd : isDownloadingEvent e with
    | true =>
      have hhook := progress_hook_downloading r e hd
      have hfm : (e :: es).filterMap eventPct
          = downloadingPct e :: es.filterMap eventPct := by
        simp [List.filterMap_cons, eventPct, hd]
      rw [hfm] at hchain
      have h1 := (List.chain'_cons.mp hchain).1
      have h2 := (List.chain'_cons.mp hchain).2
      have hst' : (progress_hook r e).status = "running" := by
        rw [hhook]; exact hst
      have hpr' : (progress_hook r e).progress = renderPct (downloadingPct e) := by
        rw [hhook]
      obtain ⟨ns, hcns, hmap⟩ := ih (progress_hook r e) (downloadingPct e) hst' hpr' h2
      refine ⟨downloadingPct e :: ns, List.chain'_cons.mpr ⟨h1, hcns⟩, ?_⟩
      have hp : (r.status == "running") = true := by simp [hst]
      rw [workerStates]
      simp [List.takeWhile_cons, hp, hpr, hmap]
    | false =>
      cases hf : isFinishedEvent e with
      | true =>
        have hhook := progress_hook_finished r e hf
        refine ⟨[], List.chain'_singleton m, ?_⟩
        obtain ⟨tail, htail⟩ := workerStates_cons_shape es (progress_hook r e) o no
        have hp : (r.status == "running") = true := by simp [hst]
        have hq : ((progress_hook r e).status == "running") = false := by
          rw [hhook]; simp
        rw [workerStates, htail]
        simp [List.takeWhile_cons, hp, hq, hpr]
      | false =>
        have hhook := progress_hook_other r e hd hf
        have hfm : (e :: es).filterMap eventPct = es.filterMap eventPct := by
          simp [List.filterMap_cons, eventPct, hd]
        rw [hfm] at hchain
        obtain ⟨ns, hcns, hmap⟩ := ih (progress_hook r e) m
          (by rw [hhook]; exact hst) (by rw [hhook]; exact hpr) hchain
        refine ⟨m :: ns, List.chain'_cons.mpr ⟨le_refl m, hcns⟩, ?_⟩
        have hp : (r.status == "running") = true := by simp [hst]
        rw [workerStates]
        simp [List.takeWhile_cons, hp, hpr, hmap]

/-- Once the record is in `"processing"` with progress `"100%"`, a run of
events containing no "downloading" event keeps every later state that is
out of `"running"` at progress `"100%"`. -/
theorem workerStates_progress_after_finished (es : List HookEvent)
    (r : TaskRec) (o : YdlOutcome) (n : Nat)
    (hst : r.status = "processing") (hpr : r.progress = "100%")
    (hall : es.all (fun x => !isDownloadingEvent x) = true) :
    ∀ t ∈ workerStates r es o n, t.status ≠ "running" → t.progress = "100%" := by
  induction es generalizing r with
  | nil =>
    intro t ht _
    simp [workerStates] at ht
    rcases ht with h | h
    · rw [h]; exact hpr
    · rw [h, workerFinal_progress]; exact hpr
  | cons e es ih =>
    intro t ht htst
    simp only [List.all_cons, Bool.and_eq_true, Bool.not_eq_true'] at hall
    rw [workerStates] at ht
    rcases List.mem_cons.mp ht with h | h
    · rw [h]; exact hpr
    · cases hf : isFinishedEvent e with
      | true =>
        have hhook := progress_hook_finished r e hf
        exact ih (progress_hook r e) (by rw [hhook]) (by rw [hhook]) hall.2 t h htst
      | false =>
        have hhook := progress_hook_other r e hall.1 hf
        exact ih (progress_hook r e) (by rw [hhook]; exact hst)
          (by rw [hhook]; exact hpr) hall.2 t h htst

/-- From a `"running"` record, if the event list contains a "finished"
event and no "downloading" event after a "finished" event, then every
state of the run that is out of `"running"` has progress `"100%"`. -/
theorem workerStates_progress_after_running (es : List HookEvent)
    (r : TaskRec) (o : YdlOutcome) (n : Nat)
    (hst : r.status = "running")
    (hnd : noDownloadingAfterFinished es = true)
    (hany : es.any isFinishedEvent = true) :
    ∀ t ∈ workerStates r es o n, t.status ≠ "running" → t.progress = "100%" := by
  induction es generalizing r with
  | nil => simp at hany
  | cons e es ih =>
    intro t ht htst
    rw [workerStates] at ht
    rcases List.mem_cons.mp ht with h | h
    · rw [h] at htst; exact absurd hst htst
    · cases hf : isFinishedEvent e with
      | true =>
        have hhook := progress_hook_finished r e hf
        have hall : es.all (fun x => !isDownloadingEvent x) = true := by
          simpa [noDownloadingAfterFinished, hf] using hnd
        exact workerStates_progress_after_finished es (progress_hook r e) o n
          (by rw [hhook]) (by rw [hhook]) hall t h htst
      | false =>
        have hnd' : noDownloadingAfterFinished es = true := by
          simpa [noDownloadingAfterFinished, hf] using hnd
        have hany' : es.any isFinishedEvent = true := by
          simpa [List.any_cons, hf] using hany
        cases hd : isDownloadingEvent e with
        | true =>
          have hhook := progress_hook_downloading r e hd
          exact ih (progress_hook r e) (by rw [hhook]; exact hst) hnd' hany' t h htst
        | false =>
          have hhook := progress_hook_other r e hd hf
          exact ih (progress_hook r e) (by rw [hhook]; exact hst) hnd' hany' t h htst

/-- C3 (amended): while the status is `"running"` the progress column is
a rendering of a non-decreasing percentage sequence provided the
percentages reported by the downloading events are non-decreasing; and
once the status has left `"running"`, progress is permanently `"100%"`
provided a "finished" event occurred and no "downloading" event follows a
"finished" event.  (Without these provisos the code lets progress drop
while running, and a failure before "finished" or a "downloading" event
after "finished" leaves a non-`"100%"` progress outside `"running"`.) -/
theorem claim_C3_amended (now : Nat) (events : List HookEvent)
    (outcome : YdlOutcome) :
    (List.Chain' (· ≤ ·) (0 :: events.filterMap eventPct) →
      ∃ ns, List.Chain' (· ≤ ·) ((0 : Nat) :: ns) ∧
        ((workerTrace now events outcome).takeWhile
          (fun t => t.status == "running")).map TaskRec.progress
          = ((0 : Nat) :: ns).map renderPct) ∧
    (noDownloadingAfterFinished events = true →
      events.any isFinishedEvent = true →
      ∀ t ∈ workerTrace now events outcome,
        t.status ≠ "running" → t.progress = "100%") := by
  constructor
  · intro hchain
    exact workerStates_runningPart events (createdTask now) outcome now 0
      rfl rfl hchain
  · intro h1 h2
    exact workerStates_progress_after_running events (createdTask now)
      outcome now rfl h1 h2

/-- Witness for C3 (amended) at a concrete run with non-decreasing
downloading percentages and no downloading event after the finished
event. -/
theorem claim_C3_amended_witness :
    (List.Chain' (· ≤ ·) (0 :: c3WitnessEvents.filterMap eventPct) ∧
      noDownloadingAfterFinished c3WitnessEvents = true ∧
      c3WitnessEvents.any isFinishedEvent = true) ∧
    ((∃ ns, List.Chain' (· ≤ ·) ((0 : Nat) :: ns) ∧
      ((workerTrace 0 c3WitnessEvents (YdlOutcome.ok "downloads/a.mp4")).takeWhile
        (fun t => t.status == "running")).map TaskRec.progress
        = ((0 : Nat) :: ns).map renderPct) ∧
      ∀ t ∈ workerTrace 0 c3WitnessEvents (YdlOutcome.ok "downloads/a.mp4"),
        t.status ≠ "running" → t.progress = "100%") := by
  have hfm : c3WitnessEvents.filterMap eventPct = [25, 50] := by decide
  have hchain : List.Chain' (· ≤ ·) (0 :: c3WitnessEvents.filterMap eventPct) := by
    rw [hfm]
    refine List.chain'_cons.mpr ⟨by norm_num, ?_⟩
    exact List.chain'_cons.mpr ⟨by norm_num, List.chain'_singleton _⟩
  refine ⟨⟨hchain, by decide, by decide⟩, ?_, ?_⟩
  · exact (claim_C3_amended 0 c3WitnessEvents (YdlOutcome.ok "downloads/a.mp4")).1 hchain
  · exact (claim_C3_amended 0 c3WitnessEvents (YdlOutcome.ok "downloads/a.mp4")).2
      (by decide) (by decide)

/-- Counterexample to C3 as stated: with downloading events reporting 50
of 100 and then 10 of 100 bytes and a failing extraction, the record's
progress drops from `"50%"` to `"10%"` while running, and the final
`"error"` state keeps progress `"10%"`, so progress is neither
non-decreasing while running nor permanently `"100%"` after leaving
`"running"`. -/
theorem claim_C3_counterexample :
    ¬ (∀ (now : Nat) (events : List HookEvent) (outcome : YdlOutcome),
        List.Chain' (fun a b => a.status = "running" → b.status = "running" →
          pctOf a.progress ≤ pctOf b.progress) (workerTrace now events outcome) ∧
        ∀ t ∈ workerTrace now events outcome,
          t.status ≠ "running" → t.progress = "100%") := by
  intro h
  have h2 := (h 0 [⟨some "downloading", some 100, none, some 50⟩,
    ⟨some "downloading", some 100, none, some 10⟩] (YdlOutcome.fail "boom")).2
  have hmem : (workerTrace 0 [⟨some "downloading", some 100, none, some 50⟩,
      ⟨some "downloading", some 100, none, some 10⟩]
      (YdlOutcome.fail "boom")).getLastD (createdTask 0)
      ∈ workerTrace 0 [⟨some "downloading", some 100, none, some 50⟩,
        ⟨some "downloading", some 100, none, some 10⟩] (YdlOutcome.fail "boom") := by
    decide
  have h3 := h2 _ hmem (by decide)
  exact absurd h3 (by decide)

/-- The hook never touches the `filename` and `error` keys. -/
theorem progress_hook_fields (r : TaskRec) (d : HookEvent) :
    (progress_hook r d).filename = r.filename ∧
    (progress_hook r d).error = r.error := by
  unfold progress_hook
  split
  · exact ⟨rfl, rfl⟩
  split
  · exact ⟨rfl, rfl⟩
  · exact ⟨rfl, rfl⟩

/-- Applying any run of hook events keeps `filename` and `error` unset. -/
theorem runHooks_fields (es : List HookEvent) (r : TaskRec)
    (hr : r.filename = none ∧ r.error = none) :
    (runHooks r es).filename = none ∧ (runHooks r es).error = none := by
  induction es generalizing r with
  | nil => exact hr
  | cons e es ih =>
    exact ih (progress_hook r e) ⟨(progress_hook_fields r e).1.trans hr.1,
      (progress_hook_fields r e).2.trans hr.2⟩

/-- Every state of a worker run either has both `filename` and `error`
unset or is the final state. -/
theorem workerStates_mem_fields (es : List HookEvent) (r : TaskRec)
    (o : YdlOutcome) (n : Nat) (hr : r.filename = none ∧ r.error = none) :
    ∀ t ∈ workerStates r es o n,
      (t.filename = none ∧ t.error = none) ∨
      t = workerFinal (runHooks r es) o n := by
  induction es generalizing r with
  | nil =>
    intro t ht
    simp [workerStates] at ht
    rcases ht with h | h
    · left; rw [h]; exact hr
    · right; rw [h]; rfl
  | cons e es ih =>
    intro t ht
    rw [workerStates] at ht
    rcases List.mem_cons.mp ht with h | h
    · left; rw [h]; exact hr
    · exact ih (progress_hook r e) ⟨(progress_hook_fields r e).1.trans hr.1,
        (progress_hook_fields r e).2.trans hr.2⟩ t h

/-- The worker's final update sets exactly one of `filename` and `error`
to a non-empty value, given usable collaborator strings and a record with
both unset. -/
theorem workerFinal_fields (r : TaskRec) (o : YdlOutcome) (n : Nat)
    (hr : r.filename = none ∧ r.error = none)
    (hok : outcomeStringsOK o = true) :
    (∃ f, (workerFinal r o n).filename = some f ∧ f ≠ "" ∧
      (workerFinal r o n).error = none) ∨
    (∃ e, (workerFinal r o n).error = some e ∧ e ≠ "" ∧
      (workerFinal r o n).filename = none) := by
  cases o with
  | ok f =>
    left
    have hne : pyName f ≠ "" := by
      simpa [outcomeStringsOK] using hok
    have hf : ¬ (f = "") := by
      intro hf0
      apply hne
      rw [hf0]
      rfl
    refine ⟨pyName f, ?_, hne, ?_⟩
    · simp [workerFinal, addMessage, hf]
    · simp [workerFinal, addMessage, hr.2]
  | fail e =>
    right
    have hne : e ≠ "" := by
      simpa [outcomeStringsOK] using hok
    exact ⟨e, by simp [workerFinal, addMessage], hne,
      by simp [workerFinal, addMessage, hr.1]⟩
  | raised m =>
    right
    have hne : m ≠ "" := by
      simpa [outcomeStringsOK] using hok
    exact ⟨m, by simp [workerFinal], hne, by simp [workerFinal, hr.1]⟩

/-- C4: every state of a task's record before the worker's final update
has both `filename` and `error` unset (so each is written at most once,
by that final update), and in the terminal state exactly one of the two
carries a non-empty value while the other is unset — given that the
collaborator's filename has a non-empty basename and its error strings
are non-empty. -/
theorem claim_C4_filename_error (now : Nat) (events : List HookEvent)
    (outcome : YdlOutcome) (hok : outcomeStringsOK outcome = true) :
    (∀ t ∈ workerTrace now events outcome,
      (t.filename = none ∧ t.error = none) ∨
      t = (workerTrace now events outcome).getLastD (createdTask now)) ∧
    ((∃ f, ((workerTrace now events outcome).getLastD (createdTask now)).filename
          = some f ∧ f ≠ "" ∧
        ((workerTrace now events outcome).getLastD (createdTask now)).error = none) ∨
      (∃ e, ((workerTrace now events outcome).getLastD (createdTask now)).error
          = some e ∧ e ≠ "" ∧
        ((workerTrace now events outcome).getLastD (createdTask now)).filename
          = none)) := by
  have hlast := workerStates_getLast events (createdTask now) (createdTask now)
    outcome now
  constructor
  · intro t ht
    rcases workerStates_mem_fields events (createdTask now) outcome now
      ⟨rfl, rfl⟩ t ht with h | h
    · exact Or.inl h
    · right
      rw [workerTrace, hlast]
      exact h
  · rw [workerTrace, hlast]
    exact workerFinal_fields (runHooks (createdTask now) events) outcome now
      (runHooks_fields events (createdTask now) ⟨rfl, rfl⟩) hok

/-- Witness for C4 at a concrete successful run. -/
theorem claim_C4_filename_error_witness :
    (outcomeStringsOK (YdlOutcome.ok "downloads/a.mp4") = true ∧
      createdTask 0 ∈ workerTrace 0 [⟨some "finished", none, none, none⟩]
        (YdlOutcome.ok "downloads/a.mp4")) ∧
    ((createdTask 0).filename = none ∧ (createdTask 0).error = none ∨
      createdTask 0 = (workerTrace 0 [⟨some "finished", none, none, none⟩]
        (YdlOutcome.ok "downloads/a.mp4")).getLastD (createdTask 0)) ∧
    ((∃ f, ((workerTrace 0 [⟨some "finished", none, none, none⟩]
          (YdlOutcome.ok "downloads/a.mp4")).getLastD (createdTask 0)).filename
          = some f ∧ f ≠ "" ∧
        ((workerTrace 0 [⟨some "finished", none, none, none⟩]
          (YdlOutcome.ok "downloads/a.mp4")).getLastD (createdTask 0)).error = none) ∨
      (∃ e, ((workerTrace 0 [⟨some "finished", none, none, none⟩]
          (YdlOutcome.ok "downloads/a.mp4")).getLastD (createdTask 0)).error
          = some e ∧ e ≠ "" ∧
        ((workerTrace 0 [⟨some "finished", none, none, none⟩]
          (YdlOutcome.ok "downloads/a.mp4")).getLastD (createdTask 0)).filename
          = none)) :=
  ⟨⟨by decide, by decide⟩,
   (claim_C4_filename_error 0 [⟨some "finished", none, none, none⟩]
      (YdlOutcome.ok "downloads/a.mp4") (by decide)).1 (createdTask 0) (by decide),
   (claim_C4_filename_error 0 [⟨some "finished", none, none, none⟩]
      (YdlOutcome.ok "downloads/a.mp4") (by decide)).2⟩

/-- C5: no exception escapes the worker thread function — the bare
`except Exception` clause catches anything the `try` block raises and
translates it into an `error` transition carrying the exception's
description on the task's record. -/
theorem claim_C5_exception_isolated (cookiefile : Option String) (now : Nat)
    (events : List HookEvent) (outcome : YdlOutcome) :
    (workerRun cookiefile now events outcome).escaped = none ∧
    (∀ m, outcome = YdlOutcome.raised m →
      (workerRun cookiefile now events outcome).record.status = "error" ∧
      (workerRun cookiefile now events outcome).record.error = some m) := by
  refine ⟨rfl, ?_⟩
  intro m hm
  subst hm
  exact ⟨by simp [workerRun, workerFinal], by simp [workerRun, workerFinal]⟩

/-- Witness for C5 at a concrete raised exception. -/
theorem claim_C5_exception_isolated_witness :
    (workerRun (some "/tmp/c.txt") 0 [] (YdlOutcome.raised "KeyError")).escaped
      = none ∧
    (workerRun (some "/tmp/c.txt") 0 []
      (YdlOutcome.raised "KeyError")).record.status = "error" ∧
    (workerRun (some "/tmp/c.txt") 0 []
      (YdlOutcome.raised "KeyError")).record.error = some "KeyError" :=
  ⟨(claim_C5_exception_isolated (some "/tmp/c.txt") 0 []
      (YdlOutcome.raised "KeyError")).1,
   (claim_C5_exception_isolated (some "/tmp/c.txt") 0 []
      (YdlOutcome.raised "KeyError")).2 "KeyError" rfl⟩

/-- C8: the worker's `finally` block attempts to delete the temporary
cookie file exactly when the request supplied one, on every execution
path — success, extraction failure, or an exception from the `try`
block. -/
theorem claim_C8_cookie_cleanup (cookiefile : Option String) (now : Nat)
    (events : List HookEvent) (outcome : YdlOutcome) :
    (∀ c, cookiefile = some c →
      (workerRun cookiefile now events outcome).unlinkAttempted = some c) ∧
    (cookiefile = none →
      (workerRun cookiefile now events outcome).unlinkAttempted = none) := by
  constructor
  · intro c hc
    rw [hc]
    rfl
  · intro hc
    rw [hc]
    rfl

/-- Witness for C8 on all three outcome kinds at a concrete cookie
file. -/
theorem claim_C8_cookie_cleanup_witness :
    (workerRun (some "/tmp/c.txt") 0 [] (YdlOutcome.ok "downloads/a.mp4")).unlinkAttempted
      = some "/tmp/c.txt" ∧
    (workerRun (some "/tmp/c.txt") 0 [] (YdlOutcome.fail "boom")).unlinkAttempted
      = some "/tmp/c.txt" ∧
    (workerRun (some "/tmp/c.txt") 0 [] (YdlOutcome.raised "KeyError")).unlinkAttempted
      = some "/tmp/c.txt" :=
  ⟨(claim_C8_cookie_cleanup (some "/tmp/c.txt") 0 []
      (YdlOutcome.ok "downloads/a.mp4")).1 "/tmp/c.txt" rfl,
   (claim_C8_cookie_cleanup (some "/tmp/c.txt") 0 []
      (YdlOutcome.fail "boom")).1 "/tmp/c.txt" rfl,
   (claim_C8_cookie_cleanup (some "/tmp/c.txt") 0 []
      (YdlOutcome.raised "KeyError")).1 "/tmp/c.txt" rfl⟩

/-- A string starting with `"audio:"` is non-empty. -/
theorem pyStartswith_audio_ne_empty (s : String)
    (h : pyStartswith s "audio:" = true) : s ≠ "" := by
  intro h0
  rw [h0] at h
  exact absurd h (by decide)

/-- C6: the worker-built options select `bestaudio/best` plus an
`FFmpegExtractAudio` step at the codec after the `audio:` colon and
quality `"192"` for an `audio:` selector; pass any other non-empty
selector through verbatim with no postprocessing; and fall back to
`bestvideo+bestaudio/best` with no postprocessing for an empty
selector. -/
theorem claim_C6_format_selection (requested : String)
    (cookiefile : Option String) (serverCookieExists : Bool)
    (proxy : Option String) :
    (pyStartswith requested "audio:" = true →
      (workerOpts requested cookiefile serverCookieExists proxy).format
        = "bestaudio/best" ∧
      (workerOpts requested cookiefile serverCookieExists proxy).postprocessors
        = [⟨"FFmpegExtractAudio", pyAfterColon requested, "192"⟩]) ∧
    (requested ≠ "" → pyStartswith requested "audio:" = false →
      (workerOpts requested cookiefile serverCookieExists proxy).format
        = requested ∧
      (workerOpts requested cookiefile serverCookieExists proxy).postprocessors
        = []) ∧
    (requested = "" →
      (workerOpts requested cookiefile serverCookieExists proxy).format
        = "bestvideo+bestaudio/best" ∧
      (workerOpts requested cookiefile serverCookieExists proxy).postprocessors
        = []) := by
  refine ⟨?_, ?_, ?_⟩
  · intro hsw
    have hne := pyStartswith_audio_ne_empty requested hsw
    have h192 : toString 192 = "192" := by decide
    constructor <;>
      simp [workerOpts, parseRequested, prepare_yt_dlp_opts, pyOrStr, hne, hsw, h192]
  · intro hne hsw
    constructor <;>
      simp [workerOpts, parseRequested, prepare_yt_dlp_opts, pyOrStr, hne, hsw]
  · intro he
    constructor <;>
      simp [workerOpts, parseRequested, prepare_yt_dlp_opts, pyOrStr, he]

/-- Witness for C6 on the three selector shapes: `"audio:mp3"`, a
verbatim selector, and the empty selector. -/
theorem claim_C6_format_selection_witness :
    ((workerOpts "audio:mp3" none false none).format = "bestaudio/best" ∧
      (workerOpts "audio:mp3" none false none).postprocessors
        = [⟨"FFmpegExtractAudio", pyAfterColon "audio:mp3", "192"⟩]) ∧
    ((workerOpts "bestvideo" none false none).format = "bestvideo" ∧
      (workerOpts "bestvideo" none false none).postprocessors = []) ∧
    ((workerOpts "" none false none).format = "bestvideo+bestaudio/best" ∧
      (workerOpts "" none false none).postprocessors = []) :=
  ⟨(claim_C6_format_selection "audio:mp3" none false none).1 (by decide),
   (claim_C6_format_selection "bestvideo" none false none).2.1 (by decide) (by decide),
   (claim_C6_format_selection "" none false none).2.2 rfl⟩

/-- Counterexample to C7 as stated: the handler's 404 body carries the
error string `"no such task"`, not `"not_found"` (the latter is produced
only by the app-wide 404 handler, which does not run for this returned
response). -/
theorem claim_C7_counterexample :
    ¬ (∀ (store : String → Option TaskRec) (tid : String),
        store tid = none →
        (task_status store tid).error = some "not_found") := by
  intro h
  have := h (fun _ => none) "missing" rfl
  exact absurd this (by decide)

/-- C7 (amended): polling an unknown task id returns HTTP 404 with the
JSON body carrying `ok = false` and error string `"no such task"` — the
handler is a total function, it never raises — and polling a present id
returns HTTP 200 with `ok = true` and the record. -/
theorem claim_C7_amended (store : String → Option TaskRec) (tid : String) :
    (store tid = none →
      task_status store tid
        = { httpStatus := 404, ok := false, error := some "no such task" }) ∧
    (∀ t, store tid = some t →
      task_status store tid
        = { httpStatus := 200, ok := true, task := some t }) := by
  constructor
  · intro h
    simp [task_status, h]
  · intro t h
    simp [task_status, h]

/-- Witness for C7 (amended) on a concrete store with one task. -/
theorem claim_C7_amended_witness :
    task_status (fun _ => none) "missing"
      = { httpStatus := 404, ok := false, error := some "no such task" } ∧
    task_status (fun s => if s = "t1" then some (createdTask 0) else none) "t1"
      = { httpStatus := 200, ok := true, task := some (createdTask 0) } :=
  ⟨(claim_C7_amended (fun _ => none) "missing").1 rfl,
   (claim_C7_amended (fun s => if s = "t1" then some (createdTask 0) else none)
      "t1").2 (createdTask 0) (by decide)⟩

/-- Counterexample to C9 as stated: the read in `task_status`
(`TASKS.get(tid)`, `src/app.py` line 326) is performed without holding
`TASK_LOCK`, so not every access to the shared task map is under mutual
exclusion. -/
theorem claim_C9_counterexample :
    ¬ (∀ s ∈ taskMapAccessSites, s.underLock = true) := by
  intro h
  have := h ⟨"task_status", AccessKind.read, false⟩ (by decide)
  exact absurd this (by decide)

/-- C9 (amended): the only access to the shared `TASKS` map performed
under `TASK_LOCK` is the insert in `download_route`; every other access —
the reads by status polls and `add_task_message`, and the updates by the
worker and its progress hook — is a bare dict operation. -/
theorem claim_C9_amended :
    ∀ s ∈ taskMapAccessSites, s.underLock = (s.fn == "download_route") := by
  decide

/-- Witness for C9 (amended) at the status-poll read site. -/
theorem claim_C9_amended_witness :
    (⟨"task_status", AccessKind.read, false⟩ : AccessSite) ∈ taskMapAccessSites ∧
    (⟨"task_status", AccessKind.read, false⟩ : AccessSite).underLock
      = ((⟨"task_status", AccessKind.read, false⟩ : AccessSite).fn
        == "download_route") :=
  ⟨by decide,
   claim_C9_amended ⟨"task_status", AccessKind.read, false⟩ (by decide)⟩

/-- No group produced by splitting on `/` contains a `/`. -/
theorem splitSlash_no_slash (cs : List Char) :
    ∀ g ∈ splitSlash cs, '/' ∉ g := by
  induction cs with
  | nil =>
    intro g hg
    simp [splitSlash] at hg
    rw [hg]
    simp
  | cons c cs ih =>
    intro g hg
    by_cases hc : c = '/'
    · rw [splitSlash, if_pos hc] at hg
      rcases List.mem_cons.mp hg with h | h
      · rw [h]; simp
      · exact ih g h
    · rw [splitSlash, if_neg hc] at hg
      cases hss : splitSlash cs with
      | nil =>
        rw [hss] at hg
        simp at hg
        rw [hg]
        intro hmem
        rcases List.mem_cons.mp hmem with h' | h'
        · exact hc h'.symm
        · simp at h'
      | cons g0 gs =>
        rw [hss] at hg
        rcases List.mem_cons.mp hg with h | h
        · rw [h]
          intro hmem
          rcases List.mem_cons.mp hmem with h' | h'
          · exact hc h'.symm
          · exact ih g0 (hss ▸ List.mem_cons_self g0 gs) h'
        · exact ih g (hss ▸ List.mem_cons_of_mem g0 h)

/-- The last element of a list under a default either belongs to the list
or is the default. -/
theorem getLastD_mem_or {α : Type} (l : List α) (d : α) :
    l.getLastD d ∈ l ∨ l.getLastD d = d := by
  induction l generalizing d with
  | nil => exact Or.inr rfl
  | cons a l ih =>
    rw [List.getLastD_cons]
    rcases ih a with h | h
    · exact Or.inl (List.mem_cons_of_mem _ h)
    · rw [h]
      exact Or.inl (List.mem_cons_self _ _)

/-- A basename computed by `pyName` never contains a path separator and
is never the component `"."`. -/
theorem pyName_no_slash_ne_dot (s : String) :
    '/' ∉ (pyName s).data ∧ pyName s ≠ "." := by
  rcases getLastD_mem_or (pathComponents s) [] with h | h
  · have hmem := (List.mem_filter.mp h).1
    have hp := of_decide_eq_true (List.mem_filter.mp h).2
    constructor
    · exact splitSlash_no_slash s.data _ hmem
    · intro hcontra
      apply hp.2
      have := congrArg String.data hcontra
      simpa [pyName] using this
  · constructor
    · rw [pyName, h]
      simp
    · rw [pyName, h]
      decide

/-- C10: the download-file handler only ever streams the path obtained
by joining the download directory with the basename of the request
string; a streamed path always lies one clean component (no separator,
not `""`, `"."` or `".."`) below the download directory — the basename
`".."` names the parent directory, on which `send_file` raises instead of
serving — and a missing target yields the 404 JSON error shape.  The
hypotheses record that the download directory exists as a directory
(ensured by `DOWNLOAD_DIR.mkdir` at startup) and hence its parent is a
directory too. -/
theorem claim_C10_serve_file (base : List String) (fs : FileSystem)
    (filename : String)
    (hdl : fs (downloadDir base) = PathKind.dir)
    (hparent : fs (downloadDir base ++ [".."]) = PathKind.dir) :
    (∀ p, serve_file base fs filename = FileResponse.fileAt p →
      p = downloadDir base ++ [pyName filename] ∧
      '/' ∉ (pyName filename).data ∧
      pyName filename ≠ "" ∧ pyName filename ≠ "." ∧ pyName filename ≠ "..") ∧
    (fs (pyJoin (downloadDir base) (pyName filename)) = PathKind.missing →
      serve_file base fs filename
        = FileResponse.json 404 false "file not found") := by
  constructor
  · intro p hp
    unfold serve_file at hp
    cases hfs : fs (pyJoin (downloadDir base) (pyName filename)) with
    | missing => simp [hfs] at hp
    | dir => simp [hfs] at hp
    | file =>
      simp [hfs] at hp
      have h0 : pyName filename ≠ "" := by
        intro h0
        rw [pyJoin, if_pos h0] at hfs
        rw [hdl] at hfs
        exact absurd hfs (by decide)
      have h2 : pyName filename ≠ ".." := by
        intro h2
        rw [pyJoin, if_neg h0, h2, hparent] at hfs
        exact absurd hfs (by decide)
      rw [pyJoin, if_neg h0] at hp
      exact ⟨hp.symm, (pyName_no_slash_ne_dot filename).1, h0,
        (pyName_no_slash_ne_dot filename).2, h2⟩
  · intro hmiss
    unfold serve_file
    simp [hmiss]

/-- Witness for C10: a traversal-shaped request resolves to the file's
basename inside the download directory, and a missing name yields the 404
shape. -/
theorem claim_C10_serve_file_witness :
    (c10Fs (downloadDir ["app"]) = PathKind.dir ∧
      c10Fs (downloadDir ["app"] ++ [".."]) = PathKind.dir ∧
      serve_file ["app"] c10Fs "a/../vid.mp4"
        = FileResponse.fileAt ["app", "downloads", "vid.mp4"] ∧
      c10Fs (pyJoin (downloadDir ["app"]) (pyName "nope.mp4"))
        = PathKind.missing) ∧
    (["app", "downloads", "vid.mp4"]
        = downloadDir ["app"] ++ [pyName "a/../vid.mp4"] ∧
      '/' ∉ (pyName "a/../vid.mp4").data ∧
      pyName "a/../vid.mp4" ≠ "" ∧ pyName "a/../vid.mp4" ≠ "." ∧
      pyName "a/../vid.mp4" ≠ "..") ∧
    serve_file ["app"] c10Fs "nope.mp4"
      = FileResponse.json 404 false "file not found" :=
  ⟨⟨by decide, by decide, by decide, by decide⟩,
   (claim_C10_serve_file ["app"] c10Fs "a/../vid.mp4" (by decide) (by decide)).1
     ["app", "downloads", "vid.mp4"] (by decide),
   (claim_C10_serve_file ["app"] c10Fs "nope.mp4" (by decide) (by decide)).2
     (by decide)⟩
